import Mathlib

/-!
Shallow embedding of the core SoD (Segregation of Duties) analysis of
src/app.py: the functions process_rule_book, process_user_access and
analyze_violations, the cell canonicalization they perform, and the
summary counts computed in main.

Spreadsheet cells are modelled as Option String: none stands for a
missing cell (pandas NaN), which the Python str() call turns into the
literal string of three letters n, a, n.  Tables are a column-name list plus rows of cells; the
row lookup in the source raises KeyError when the column is
missing, modelled with Except.  Python dicts preserve insertion order,
so the maps are association lists with append-on-new-key inserts;
Python sets are modelled as duplicate-free lists.
-/

/-- Python str() applied to a spreadsheet cell: a missing cell (pandas
NaN) stringifies to the literal text nan. -/
def pyStr : Option String → String
  | none => "nan"
  | some s => s

/-- Python str.strip(): remove leading and trailing whitespace. -/
def pyStrip (s : String) : String :=
  String.mk (((s.data.dropWhile Char.isWhitespace).reverse.dropWhile Char.isWhitespace).reverse)

/-- Python str.upper(). -/
def pyUpper (s : String) : String :=
  String.mk (s.data.map Char.toUpper)

/-- Canonical form of an authorization code in the source:
str(cell).strip().upper(). -/
def canonCode (s : String) : String := pyUpper (pyStrip s)

/-- Lexicographic code-point comparison on character lists, the order
Python uses to compare strings. -/
def charListLt : List Char → List Char → Bool
  | [], [] => false
  | [], _ :: _ => true
  | _ :: _, [] => false
  | a :: as, b :: bs => if a < b then true else if b < a then false else charListLt as bs

/-- Python string comparison a less-than b. -/
def pyLt (a b : String) : Bool := charListLt a.data b.data

/-- Python tuple(sorted((a, b))): put the two codes in ascending order. -/
def sortPair (a b : String) : String × String :=
  if pyLt a b then (a, b) else (b, a)

/-- The conflict_risk_map of process_rule_book: an insertion-ordered
dict from a sorted code pair to the risk label of the first rule row
that introduced the pair. -/
abbrev ConflictMap := List ((String × String) × String)

/-- Dict lookup on the conflict map. -/
def findPair : ConflictMap → String × String → Option String
  | [], _ => none
  | (q, r) :: rest, p => if q = p then some r else findPair rest p

/-- The per-row body of the loop in process_rule_book (lines 104-112 of
src/app.py): canonicalize the two codes and the risk label, skip the
row unless both codes are nonempty, distinct and different from the
text NAN, and otherwise insert the sorted pair first-write-wins. -/
def addRule (m : ConflictMap) (c1 c2 risk : Option String) : ConflictMap :=
  let t1 := canonCode (pyStr c1)
  let t2 := canonCode (pyStr c2)
  let r := pyStrip (pyStr risk)
  if t1 ≠ "" ∧ t2 ≠ "" ∧ t1 ≠ "NAN" ∧ t2 ≠ "NAN" ∧ t1 ≠ t2 then
    let pair := sortPair t1 t2
    if (findPair m pair).isNone then m ++ [(pair, r)] else m
  else m

/-- A parsed spreadsheet table: normalized column headers plus rows of
cells aligned with the headers. -/
structure Table where
  columns : List String
  rows : List (List (Option String))

/-- Row cell access row[c] of the source: the cell under column c, or a
KeyError naming the column when the table has no such column. -/
def getCell (cols : List String) (row : List (Option String)) (c : String) :
    Except String (Option String) :=
  match cols.findIdx? (fun x => x == c) with
  | some i => .ok (row.getD i none)
  | none => .error c

/-- Iteration of process_rule_book over the remaining rows, threading
the conflict map built so far. -/
def processRuleRows (cols : List String) :
    List (List (Option String)) → ConflictMap → Except String ConflictMap
  | [], m => .ok m
  | row :: rest, m =>
    match getCell cols row "TCODE1" with
    | .error e => .error e
    | .ok c1 =>
      match getCell cols row "TCODE2" with
      | .error e => .error e
      | .ok c2 =>
        match getCell cols row "ASK_RISK" with
        | .error e => .error e
        | .ok rk => processRuleRows cols rest (addRule m c1 c2 rk)

/-- Embedding of process_rule_book (src/app.py lines 100-114). -/
def process_rule_book (t : Table) : Except String ConflictMap :=
  processRuleRows t.columns t.rows []

/-- The user_role_tcodes structure of process_user_access: per user, per
role, the duplicate-free insertion-ordered list of granted codes. -/
abbrev UserMap := List (String × List (String × List String))

/-- The role_to_tcodes structure of process_user_access: per role, the
duplicate-free insertion-ordered list of codes granted through it. -/
abbrev RoleMap := List (String × List String)

/-- Python set.add on a set modelled as a duplicate-free list. -/
def insertSet (s : List String) (x : String) : List String :=
  if x ∈ s then s else s ++ [x]

/-- Add a code to the set held under a role key, creating the key at
the end when absent (defaultdict(set) behaviour). -/
def insertRole : List (String × List String) → String → String → List (String × List String)
  | [], role, code => [(role, [code])]
  | (r, cs) :: rest, role, code =>
    if r = role then (r, insertSet cs code) :: rest
    else (r, cs) :: insertRole rest role code

/-- Add a code under a user and role key, creating keys at the end when
absent (defaultdict(lambda: defaultdict(set)) behaviour). -/
def insertUser : UserMap → String → String → String → UserMap
  | [], user, role, code => [(user, [(role, [code])])]
  | (u, roles) :: rest, user, role, code =>
    if u = user then (u, insertRole roles role code) :: rest
    else (u, roles) :: insertUser rest user role code

/-- The per-row body of the loop in process_user_access (lines 123-131
of src/app.py): the user and role are stripped but not uppercased, the
code is stripped and uppercased; the row is recorded when user, role
and code are all nonempty and the code is not the text NAN. -/
def addAccess (um : UserMap) (rm : RoleMap) (u rl c : Option String) : UserMap × RoleMap :=
  let user := pyStrip (pyStr u)
  let role := pyStrip (pyStr rl)
  let tcode := canonCode (pyStr c)
  if user ≠ "" ∧ role ≠ "" ∧ tcode ≠ "" ∧ tcode ≠ "NAN" then
    (insertUser um user role tcode, insertRole rm role tcode)
  else (um, rm)

/-- Iteration of process_user_access over the remaining rows, threading
the two access structures built so far. -/
def processAccessRows (cols : List String) :
    List (List (Option String)) → UserMap → RoleMap → Except String (UserMap × RoleMap)
  | [], um, rm => .ok (um, rm)
  | row :: rest, um, rm =>
    match getCell cols row "USER NAME" with
    | .error e => .error e
    | .ok u =>
      match getCell cols row "ROLE" with
      | .error e => .error e
      | .ok rl =>
        match getCell cols row "AUTHORIZATION VALUE" with
        | .error e => .error e
        | .ok c =>
          processAccessRows cols rest (addAccess um rm u rl c).1 (addAccess um rm u rl c).2

/-- Embedding of process_user_access (src/app.py lines 116-132). -/
def process_user_access (t : Table) : Except String (UserMap × RoleMap) :=
  processAccessRows t.columns t.rows [] []

/-- Python itertools.combinations(l, 2): all pairs drawn from distinct
positions of l, in enumeration order. -/
def pairs : List String → List (String × String)
  | [] => []
  | x :: xs => (xs.map fun y => (x, y)) ++ pairs xs

/-- A user-level violation record as appended in analyze_violations. -/
structure UserViolation where
  user : String
  role : String
  tcode1 : String
  tcode2 : String
  risk : String
deriving DecidableEq

/-- A role-level violation record as appended in analyze_violations. -/
structure RoleViolation where
  role : String
  tcode1 : String
  tcode2 : String
  risk : String
deriving DecidableEq

/-- The inner pair loop of analyze_violations: for every enumerated
pair of codes, sort it and keep it with its risk when it is in the
conflict map. -/
def violationsFor (m : ConflictMap) (cs : List String) : List ((String × String) × String) :=
  (pairs cs).filterMap fun p =>
    match findPair m (sortPair p.1 p.2) with
    | some r => some (sortPair p.1 p.2, r)
    | none => none

/-- The user-level pass of analyze_violations (lines 138-150). -/
def userViolations (m : ConflictMap) (um : UserMap) : List UserViolation :=
  um.flatMap fun e =>
    e.2.flatMap fun f =>
      (violationsFor m f.2).map fun v => ⟨e.1, f.1, v.1.1, v.1.2, v.2⟩

/-- The role-level pass of analyze_violations (lines 152-163). -/
def roleViolations (m : ConflictMap) (rm : RoleMap) : List RoleViolation :=
  rm.flatMap fun e =>
    (violationsFor m e.2).map fun v => ⟨e.1, v.1.1, v.1.2, v.2⟩

/-- Embedding of analyze_violations (src/app.py lines 134-165). -/
def analyze_violations (um : UserMap) (rm : RoleMap) (m : ConflictMap) :
    List UserViolation × List RoleViolation :=
  (userViolations m um, roleViolations m rm)

/-- The analysis outcome stored in session state by main: the three
summary counts (lines 283-285) and the two violation lists. -/
structure AnalysisResult where
  pairsCount : Nat
  usersCount : Nat
  rolesCount : Nat
  userViols : List UserViolation
  roleViols : List RoleViolation
deriving DecidableEq

/-- The analysis part of main (src/app.py lines 249-295): build the
conflict map, build the access structures, detect violations, and
record the summary counts; any exception raised on the way is caught
and surfaced as an error distinct from a successful result. -/
def analyzeTables (ruleT accessT : Table) : Except String AnalysisResult :=
  match process_rule_book ruleT with
  | .error e => .error e
  | .ok m =>
    match process_user_access accessT with
    | .error e => .error e
    | .ok p =>
      .ok ⟨m.length, p.1.length, p.2.length,
           (analyze_violations p.1 p.2 m).1, (analyze_violations p.1 p.2 m).2⟩

/-! Helper lemmas about the embedded primitives. -/

/-- Asymmetry of the Python string order on character lists. -/
theorem charListLt_asymm : ∀ as bs, charListLt as bs = true → charListLt bs as = false
  | [], [], h => by simp [charListLt] at h
  | [], _ :: _, _ => by simp [charListLt]
  | _ :: _, [], h => by simp [charListLt] at h
  | a :: as, b :: bs, h => by
    simp only [charListLt] at h ⊢
    rcases lt_trichotomy a b with hab | hab | hab
    · rw [if_neg (lt_asymm hab), if_pos hab]
    · subst hab
      rw [if_neg (lt_irrefl a), if_neg (lt_irrefl a)] at h
      rw [if_neg (lt_irrefl a), if_neg (lt_irrefl a)]
      exact charListLt_asymm as bs h
    · rw [if_neg (lt_asymm hab), if_pos hab] at h
      exact absurd h (by simp)

/-- Connectedness of the Python string order on character lists. -/
theorem charListLt_conn : ∀ as bs, charListLt as bs = false → charListLt bs as = false → as = bs
  | [], [], _, _ => rfl
  | [], _ :: _, h, _ => by simp [charListLt] at h
  | _ :: _, [], _, h2 => by simp [charListLt] at h2
  | a :: as, b :: bs, h, h2 => by
    simp only [charListLt] at h h2
    rcases lt_trichotomy a b with hab | hab | hab
    · rw [if_pos hab] at h; exact absurd h (by simp)
    · subst hab
      rw [if_neg (lt_irrefl a), if_neg (lt_irrefl a)] at h h2
      rw [charListLt_conn as bs h h2]
    · rw [if_pos hab] at h2; exact absurd h2 (by simp)

/-- Asymmetry of the Python string comparison. -/
theorem pyLt_asymm {a b : String} (h : pyLt a b = true) : pyLt b a = false :=
  charListLt_asymm _ _ h

/-- Two strings neither of which compares below the other are equal. -/
theorem pyLt_conn {a b : String} (h : pyLt a b = false) (h2 : pyLt b a = false) : a = b := by
  cases a with
  | mk da =>
    cases b with
    | mk db => exact congrArg String.mk (charListLt_conn da db h h2)

/-- Sorting a two-element tuple does not depend on the argument order. -/
theorem sortPair_comm (a b : String) : sortPair a b = sortPair b a := by
  unfold sortPair
  cases hab : pyLt a b with
  | true => simp [hab, pyLt_asymm hab]
  | false =>
    cases hba : pyLt b a with
    | true => simp [hab, hba]
    | false => simp [hab, hba, pyLt_conn hab hba]

/-- On two distinct strings the sorted pair is strictly increasing. -/
theorem sortPair_lt {a b : String} (h : a ≠ b) :
    pyLt (sortPair a b).1 (sortPair a b).2 = true := by
  unfold sortPair
  cases hab : pyLt a b with
  | true => simpa using hab
  | false =>
    cases hba : pyLt b a with
    | true => simpa using hba
    | false => exact absurd (pyLt_conn hab hba) h

/-- A cell access under a column the table does not have raises a
KeyError naming that column. -/
theorem getCell_of_not_mem {cols : List String} {c : String} (row : List (Option String))
    (h : c ∉ cols) : getCell cols row c = .error c := by
  unfold getCell
  have hidx : cols.findIdx? (fun x => x == c) = none := by
    rw [List.findIdx?_eq_none_iff]
    intro x hx
    exact beq_eq_false_iff_ne.mpr (fun e => h (e ▸ hx))
  rw [hidx]

/-- A cell access under a column the table has succeeds. -/
theorem getCell_of_mem {cols : List String} {c : String} (row : List (Option String))
    (h : c ∈ cols) : ∃ v, getCell cols row c = .ok v := by
  unfold getCell
  cases hidx : cols.findIdx? (fun x => x == c) with
  | some i => exact ⟨row.getD i none, rfl⟩
  | none =>
    rw [List.findIdx?_eq_none_iff] at hidx
    have := hidx c h
    simp at this

/-- Every pair enumerated from a duplicate-free list has two distinct
components. -/
theorem pairs_mem_ne {l : List String} (hnd : l.Nodup) {p : String × String}
    (hp : p ∈ pairs l) : p.1 ≠ p.2 := by
  induction l with
  | nil => simp [pairs] at hp
  | cons x xs ih =>
    simp only [pairs, List.mem_append, List.mem_map] at hp
    rcases hp with ⟨y, hy, hxy⟩ | hp
    · cases hxy
      have hne : x ≠ y := fun e => (List.nodup_cons.mp hnd).1 (e ▸ hy)
      simpa using hne
    · exact ih (List.nodup_cons.mp hnd).2 hp

/-- Set insertion keeps the code list duplicate-free. -/
theorem insertSet_nodup {s : List String} {x : String} (h : s.Nodup) :
    (insertSet s x).Nodup := by
  unfold insertSet
  split
  · exact h
  · next hx =>
    rw [List.nodup_append]
    exact ⟨h, List.nodup_singleton x, fun a ha hax => hx ((List.mem_singleton.mp hax) ▸ ha)⟩

/-- Role insertion keeps every code set duplicate-free. -/
theorem insertRole_wf : ∀ (rm : List (String × List String)) (role code : String),
    (∀ e ∈ rm, e.2.Nodup) → ∀ e ∈ insertRole rm role code, e.2.Nodup
  | [], role, code, _, e, he => by
    simp [insertRole] at he
    subst he
    simp
  | (r, cs) :: rest, role, code, h, e, he => by
    simp only [insertRole] at he
    by_cases hr : r = role
    · rw [if_pos hr] at he
      rcases List.mem_cons.mp he with he | he
      · subst he
        exact insertSet_nodup (h (r, cs) (List.mem_cons_self _ _))
      · exact h e (List.mem_cons_of_mem _ he)
    · rw [if_neg hr] at he
      rcases List.mem_cons.mp he with he | he
      · subst he
        exact h (r, cs) (List.mem_cons_self _ _)
      · exact insertRole_wf rest role code (fun f hf => h f (List.mem_cons_of_mem _ hf)) e he

/-- User insertion keeps every per-role code set duplicate-free. -/
theorem insertUser_wf : ∀ (um : UserMap) (user role code : String),
    (∀ e ∈ um, ∀ f ∈ e.2, f.2.Nodup) →
    ∀ e ∈ insertUser um user role code, ∀ f ∈ e.2, f.2.Nodup
  | [], user, role, code, _, e, he => by
    simp [insertUser] at he
    subst he
    intro f hf
    simp at hf
    subst hf
    simp
  | (u, roles) :: rest, user, role, code, h, e, he => by
    simp only [insertUser] at he
    by_cases hu : u = user
    · rw [if_pos hu] at he
      rcases List.mem_cons.mp he with he | he
      · subst he
        exact insertRole_wf roles role code (h (u, roles) (List.mem_cons_self _ _))
      · exact h e (List.mem_cons_of_mem _ he)
    · rw [if_neg hu] at he
      rcases List.mem_cons.mp he with he | he
      · subst he
        exact h (u, roles) (List.mem_cons_self _ _)
      · exact insertUser_wf rest user role code (fun g hg => h g (List.mem_cons_of_mem _ hg)) e he

/-- Processing one access row keeps both structures duplicate-free. -/
theorem addAccess_wf {um : UserMap} {rm : RoleMap} (u rl c : Option String)
    (hu : ∀ e ∈ um, ∀ f ∈ e.2, f.2.Nodup) (hr : ∀ e ∈ rm, e.2.Nodup) :
    (∀ e ∈ (addAccess um rm u rl c).1, ∀ f ∈ e.2, f.2.Nodup) ∧
    (∀ e ∈ (addAccess um rm u rl c).2, e.2.Nodup) := by
  simp only [addAccess]
  split
  · exact ⟨insertUser_wf _ _ _ _ hu, insertRole_wf _ _ _ hr⟩
  · exact ⟨hu, hr⟩

/-- Processing access rows preserves duplicate-freeness of both access
structures. -/
theorem processAccessRows_wf : ∀ (cols : List String) (rows : List (List (Option String)))
    (um : UserMap) (rm : RoleMap) (um' : UserMap) (rm' : RoleMap),
    (∀ e ∈ um, ∀ f ∈ e.2, f.2.Nodup) → (∀ e ∈ rm, e.2.Nodup) →
    processAccessRows cols rows um rm = .ok (um', rm') →
    (∀ e ∈ um', ∀ f ∈ e.2, f.2.Nodup) ∧ (∀ e ∈ rm', e.2.Nodup)
  | cols, [], um, rm, um', rm', hu, hr, h => by
    simp only [processAccessRows] at h
    obtain ⟨h1, h2⟩ := Prod.mk.injEq .. ▸ Except.ok.injEq .. ▸ h
    exact h1 ▸ h2 ▸ ⟨hu, hr⟩
  | cols, row :: rest, um, rm, um', rm', hu, hr, h => by
    simp only [processAccessRows] at h
    cases hg1 : getCell cols row "USER NAME" with
    | error e => rw [hg1] at h; exact absurd h (by simp)
    | ok u =>
      rw [hg1] at h
      cases hg2 : getCell cols row "ROLE" with
      | error e => rw [hg2] at h; exact absurd h (by simp)
      | ok rl =>
        rw [hg2] at h
        cases hg3 : getCell cols row "AUTHORIZATION VALUE" with
        | error e => rw [hg3] at h; exact absurd h (by simp)
        | ok c =>
          rw [hg3] at h
          exact processAccessRows_wf cols rest _ _ um' rm'
            (addAccess_wf u rl c hu hr).1 (addAccess_wf u rl c hu hr).2 h

/-- The structures built by process_user_access are duplicate-free. -/
theorem process_user_access_wf {t : Table} {um : UserMap} {rm : RoleMap}
    (h : process_user_access t = .ok (um, rm)) :
    (∀ e ∈ um, ∀ f ∈ e.2, f.2.Nodup) ∧ (∀ e ∈ rm, e.2.Nodup) :=
  processAccessRows_wf t.columns t.rows [] [] um rm (by simp) (by simp) h

/-- Every record kept by the pair loop comes from an enumerated pair,
carries that pair in sorted form, and its risk is the lookup result. -/
theorem violationsFor_mem {m : ConflictMap} {cs : List String}
    {v : (String × String) × String} (h : v ∈ violationsFor m cs) :
    ∃ p ∈ pairs cs, v.1 = sortPair p.1 p.2 ∧ findPair m (sortPair p.1 p.2) = some v.2 := by
  unfold violationsFor at h
  rw [List.mem_filterMap] at h
  obtain ⟨p, hp, hf⟩ := h
  cases hfp : findPair m (sortPair p.1 p.2) with
  | none => rw [hfp] at hf; exact absurd hf (by simp)
  | some r =>
    rw [hfp] at hf
    simp only [Option.some.injEq] at hf
    exact ⟨p, hp, hf ▸ ⟨rfl, hfp⟩⟩

/-- On a duplicate-free code list, every kept record has its two codes
in strictly ascending order. -/
theorem violationsFor_ordered {m : ConflictMap} {cs : List String} (hnd : cs.Nodup) :
    ∀ v ∈ violationsFor m cs, pyLt v.1.1 v.1.2 = true := by
  intro v hv
  obtain ⟨p, hp, h1, _⟩ := violationsFor_mem hv
  rw [h1]
  exact sortPair_lt (pairs_mem_ne hnd hp)

/-- Every user-level violation drawn from duplicate-free code sets has
its two codes in strictly ascending order. -/
theorem userViolations_ordered {m : ConflictMap} {um : UserMap}
    (h : ∀ e ∈ um, ∀ f ∈ e.2, f.2.Nodup) :
    ∀ v ∈ userViolations m um, pyLt v.tcode1 v.tcode2 = true := by
  intro v hv
  unfold userViolations at hv
  rw [List.mem_flatMap] at hv
  obtain ⟨e, he, hv⟩ := hv
  rw [List.mem_flatMap] at hv
  obtain ⟨f, hf, hv⟩ := hv
  rw [List.mem_map] at hv
  obtain ⟨w, hw, rfl⟩ := hv
  exact violationsFor_ordered (h e he f hf) w hw

/-- Every role-level violation drawn from duplicate-free code sets has
its two codes in strictly ascending order. -/
theorem roleViolations_ordered {m : ConflictMap} {rm : RoleMap}
    (h : ∀ e ∈ rm, e.2.Nodup) :
    ∀ v ∈ roleViolations m rm, pyLt v.tcode1 v.tcode2 = true := by
  intro v hv
  unfold roleViolations at hv
  rw [List.mem_flatMap] at hv
  obtain ⟨e, he, hv⟩ := hv
  rw [List.mem_map] at hv
  obtain ⟨w, hw, rfl⟩ := hv
  exact violationsFor_ordered (h e he) w hw

/-! Claim theorems. -/

/-- Claim C9: a rule row whose two codes are equal after
canonicalization (trimming and uppercasing), including rows whose codes
become equal only through canonicalization, never produces a conflict
map entry and is dropped without error. -/
theorem c9_self_conflict_excluded (m : ConflictMap) (x y risk : Option String)
    (h : canonCode (pyStr x) = canonCode (pyStr y)) : addRule m x y risk = m := by
  simp only [addRule]
  rw [if_neg (fun hc => hc.2.2.2.2 h)]

/-- Witness for claim C9 at a concrete self-conflicting row. -/
theorem c9_self_conflict_excluded_witness :
    addRule [] (some " tx1 ") (some "TX1") (some "High") = [] :=
  c9_self_conflict_excluded [] (some " tx1 ") (some "TX1") (some "High") (by decide)

/-- Claim C10: a code whose canonical form is the literal text NAN is
treated as absent everywhere: a rule row containing it in either code
column produces no conflict map entry, and an access row containing it
as the authorization value contributes nothing to either access
structure. -/
theorem c10_nan_code_absent (m : ConflictMap) (um : UserMap) (rm : RoleMap)
    (x y risk u rl c : Option String) :
    (canonCode (pyStr x) = "NAN" ∨ canonCode (pyStr y) = "NAN" → addRule m x y risk = m) ∧
    (canonCode (pyStr c) = "NAN" → addAccess um rm u rl c = (um, rm)) := by
  constructor
  · intro h
    simp only [addRule]
    rw [if_neg]
    intro hc
    rcases h with h | h
    · exact hc.2.2.1 h
    · exact hc.2.2.2.1 h
  · intro h
    simp only [addAccess]
    rw [if_neg (fun hc => hc.2.2.2 h)]

/-- Witness for claim C10 at concrete rows carrying the text nan as a
code. -/
theorem c10_nan_code_absent_witness :
    addRule [] (some " nan ") (some "TX1") (some "High") = [] ∧
    addAccess [] [] (some "Alice") (some "R1") (some "nAn") = ([], []) :=
  ⟨(c10_nan_code_absent [] [] [] (some " nan ") (some "TX1") (some "High")
      (some "Alice") (some "R1") (some "nAn")).1 (Or.inl (by decide)),
   (c10_nan_code_absent [] [] [] (some " nan ") (some "TX1") (some "High")
      (some "Alice") (some "R1") (some "nAn")).2 (by decide)⟩

/-- Counterexample to claim C1: an access row whose user name cell is
missing (null) is not skipped; the Python str() conversion turns the
missing value into the text nan, which passes the truthiness check, so
the row contributes a user named nan to both access structures. -/
theorem c1_missing_user_kept :
    process_user_access ⟨["USER NAME", "ROLE", "AUTHORIZATION VALUE"],
        [[none, some "R1", some "TX1"]]⟩
      = .ok ([("nan", [("R1", ["TX1"])])], [("R1", ["TX1"])]) := rfl

/-- Claim C1 as amended: an access row is skipped, contributing no
entry and raising no error, whenever the user or the role is empty
after trimming, or the authorization code is empty after trimming or
canonicalizes to the text NAN; a missing user or role cell is instead
kept as the literal name nan. -/
theorem c1_row_skip_amended (um : UserMap) (rm : RoleMap) (u rl c : Option String)
    (h : pyStrip (pyStr u) = "" ∨ pyStrip (pyStr rl) = "" ∨
         canonCode (pyStr c) = "" ∨ canonCode (pyStr c) = "NAN") :
    addAccess um rm u rl c = (um, rm) := by
  simp only [addAccess]
  rw [if_neg]
  intro hc
  rcases h with h | h | h | h
  · exact hc.1 h
  · exact hc.2.1 h
  · exact hc.2.2.1 h
  · exact hc.2.2.2 h

/-- Witness for the amended claim C1 at a whitespace-only user cell. -/
theorem c1_row_skip_amended_witness :
    addAccess [] [] (some "   ") (some "R1") (some "TX1") = ([], []) :=
  c1_row_skip_amended [] [] (some "   ") (some "R1") (some "TX1") (Or.inl (by decide))

/-- Counterexample to claim C2: two access rows whose user fields
differ only in letter case produce two distinct users, because the
source strips but never uppercases the user (or role) field. -/
theorem c2_case_users_not_merged :
    process_user_access ⟨["USER NAME", "ROLE", "AUTHORIZATION VALUE"],
        [[some "alice", some "R1", some "TX1"], [some "ALICE", some "R1", some "TX2"]]⟩
      = .ok ([("alice", [("R1", ["TX1"])]), ("ALICE", [("R1", ["TX2"])])],
             [("R1", ["TX1", "TX2"])]) := rfl

/-- Claim C2 as amended: a processed access row depends on the raw user
and role fields only through trimming (case preserved), and on the raw
code field through trimming and uppercasing; hence rows whose user or
role fields differ only in surrounding whitespace, or whose code fields
differ only in case or whitespace, are merged, while user or role
fields differing in letter case are not. -/
theorem c2_canonicalization_amended (um : UserMap) (rm : RoleMap)
    (u1 u2 rl1 rl2 c1 c2 : Option String)
    (hu : pyStrip (pyStr u1) = pyStrip (pyStr u2))
    (hrl : pyStrip (pyStr rl1) = pyStrip (pyStr rl2))
    (hc : canonCode (pyStr c1) = canonCode (pyStr c2)) :
    addAccess um rm u1 rl1 c1 = addAccess um rm u2 rl2 c2 := by
  simp only [addAccess, hu, hrl, hc]

/-- Witness for the amended claim C2: whitespace-differing user and
case-differing code rows act identically. -/
theorem c2_canonicalization_amended_witness :
    addAccess [] [] (some " Alice ") (some "r1 ") (some "tx1")
      = addAccess [] [] (some "Alice") (some "r1") (some " TX1") :=
  c2_canonicalization_amended [] [] (some " Alice ") (some "Alice") (some "r1 ")
    (some "r1") (some "tx1") (some " TX1") (by decide) (by decide) (by decide)

/-- The end-to-end example rule table with the single conflict row
TX1, TX2, High. -/
def exampleRuleTable : Table :=
  ⟨["TCODE1", "TCODE2", "ASK_RISK"], [[some "TX1", some "TX2", some "High"]]⟩

/-- The end-to-end example access table with rows for Alice and Bob. -/
def exampleAccessTable : Table :=
  ⟨["USER NAME", "ROLE", "AUTHORIZATION VALUE"],
   [[some "Alice", some "R1", some "TX1"],
    [some "Alice", some "R1", some "TX2"],
    [some "Bob", some "R2", some "TX1"]]⟩

/-- Claim C4: on the example rule table and access table the full core
pipeline produces exactly one user-level violation for Alice under R1
on the pair TX1, TX2 with severity High, exactly one role-level
violation for R1 on that pair, and the summary counts one conflict
pair, two users, two roles. -/
theorem c4_end_to_end :
    analyzeTables exampleRuleTable exampleAccessTable
      = .ok ⟨1, 2, 2, [⟨"Alice", "R1", "TX1", "TX2", "High"⟩],
             [⟨"R1", "TX1", "TX2", "High"⟩]⟩ := rfl

/-- Claim C3: building the conflict map is first-write-wins per
unordered pair: for two valid distinct canonical codes, processing a
rule row and then its swapped duplicate with a different severity, in
either column order, leaves exactly one entry for the unordered pair,
and lookup returns the first-seen severity. -/
theorem c3_first_write_wins (x y s1 s2 : Option String)
    (h1 : canonCode (pyStr x) ≠ "") (h2 : canonCode (pyStr y) ≠ "")
    (h3 : canonCode (pyStr x) ≠ "NAN") (h4 : canonCode (pyStr y) ≠ "NAN")
    (h5 : canonCode (pyStr x) ≠ canonCode (pyStr y)) :
    addRule (addRule [] x y s1) y x s2
      = [(sortPair (canonCode (pyStr x)) (canonCode (pyStr y)), pyStrip (pyStr s1))] ∧
    addRule (addRule [] x y s1) x y s2
      = [(sortPair (canonCode (pyStr x)) (canonCode (pyStr y)), pyStrip (pyStr s1))] ∧
    findPair (addRule (addRule [] x y s1) y x s2)
      (sortPair (canonCode (pyStr x)) (canonCode (pyStr y))) = some (pyStrip (pyStr s1)) := by
  have hfirst : addRule [] x y s1
      = [(sortPair (canonCode (pyStr x)) (canonCode (pyStr y)), pyStrip (pyStr s1))] := by
    simp only [addRule]
    rw [if_pos ⟨h1, h2, h3, h4, h5⟩]
    simp [findPair]
  have hyx : addRule (addRule [] x y s1) y x s2
      = [(sortPair (canonCode (pyStr x)) (canonCode (pyStr y)), pyStrip (pyStr s1))] := by
    rw [hfirst]
    simp only [addRule]
    rw [if_pos ⟨h2, h1, h4, h3, Ne.symm h5⟩]
    rw [sortPair_comm (canonCode (pyStr y)) (canonCode (pyStr x))]
    simp [findPair]
  have hxy : addRule (addRule [] x y s1) x y s2
      = [(sortPair (canonCode (pyStr x)) (canonCode (pyStr y)), pyStrip (pyStr s1))] := by
    rw [hfirst]
    simp only [addRule]
    rw [if_pos ⟨h1, h2, h3, h4, h5⟩]
    simp [findPair]
  refine ⟨hyx, hxy, ?_⟩
  rw [hyx]
  simp [findPair]

/-- Witness for claim C3 at two concrete duplicated rule rows. -/
theorem c3_first_write_wins_witness :
    addRule (addRule [] (some "b") (some "a") (some " High ")) (some "a") (some "b") (some "Low")
      = [(("A", "B"), "High")] ∧
    addRule (addRule [] (some "b") (some "a") (some " High ")) (some "b") (some "a") (some "Low")
      = [(("A", "B"), "High")] ∧
    findPair (addRule (addRule [] (some "b") (some "a") (some " High "))
        (some "a") (some "b") (some "Low")) ("A", "B") = some "High" :=
  c3_first_write_wins (some "b") (some "a") (some " High ") (some "Low")
    (by decide) (by decide) (by decide) (by decide) (by decide)

/-- Claim C6: a role whose aggregated code set consists of the three
distinct codes A, B, C, where exactly the unordered pairs of A with B
and of A with C are in the conflict map, yields exactly two role-level
records, one per matching pair; and an entity none of whose code pairs
is in the conflict map yields zero violations at both levels. -/
theorem c6_combinatorial_completeness (R A B C s1 s2 : String) (M : ConflictMap)
    (U R2 : String) (cs : List String) (M2 : ConflictMap)
    (_hAB : A ≠ B) (_hAC : A ≠ C) (_hBC : B ≠ C)
    (h1 : findPair M (sortPair A B) = some s1)
    (h2 : findPair M (sortPair A C) = some s2)
    (h3 : findPair M (sortPair B C) = none)
    (hnone : ∀ p ∈ pairs cs, findPair M2 (sortPair p.1 p.2) = none) :
    roleViolations M [(R, [A, B, C])]
      = [⟨R, (sortPair A B).1, (sortPair A B).2, s1⟩,
         ⟨R, (sortPair A C).1, (sortPair A C).2, s2⟩] ∧
    userViolations M2 [(U, [(R2, cs)])] = [] ∧
    roleViolations M2 [(R2, cs)] = [] := by
  have hvnil : violationsFor M2 cs = [] := by
    unfold violationsFor
    rw [List.filterMap_eq_nil_iff]
    intro p hp
    rw [hnone p hp]
  refine ⟨?_, ?_, ?_⟩
  · simp [roleViolations, violationsFor, pairs, h1, h2, h3]
  · simp [userViolations, hvnil]
  · simp [roleViolations, hvnil]

/-- Witness for claim C6 at a concrete three-code role and a concrete
conflict-free entity. -/
theorem c6_combinatorial_completeness_witness :
    roleViolations [(("A", "B"), "High"), (("A", "C"), "Low")] [("R1", ["A", "B", "C"])]
      = [⟨"R1", "A", "B", "High"⟩, ⟨"R1", "A", "C", "Low"⟩] ∧
    userViolations [] [("U1", [("R9", ["X", "Y", "Z"])])] = [] ∧
    roleViolations [] [("R9", ["X", "Y", "Z"])] = [] :=
  c6_combinatorial_completeness "R1" "A" "B" "C" "High" "Low"
    [(("A", "B"), "High"), (("A", "C"), "Low")] "U1" "R9" ["X", "Y", "Z"] []
    (by decide) (by decide) (by decide) (by decide) (by decide) (by decide) (by decide)

/-- Claim C7: in every violation record emitted by a successful run of
the pipeline, at either detection level, the first recorded code is
strictly below the second in the lexicographic string order, regardless
of enumeration order. -/
theorem c7_codes_sorted (ruleT accessT : Table) (res : AnalysisResult)
    (h : analyzeTables ruleT accessT = .ok res) :
    (res.userViols.all fun v => pyLt v.tcode1 v.tcode2) = true ∧
    (res.roleViols.all fun v => pyLt v.tcode1 v.tcode2) = true := by
  unfold analyzeTables at h
  cases h1 : process_rule_book ruleT with
  | error e => rw [h1] at h; exact absurd h (by simp)
  | ok m =>
    rw [h1] at h
    cases h2 : process_user_access accessT with
    | error e => rw [h2] at h; exact absurd h (by simp)
    | ok p =>
      obtain ⟨um, rm⟩ := p
      rw [h2] at h
      simp only [Except.ok.injEq] at h
      subst h
      have hwf := process_user_access_wf h2
      constructor
      · rw [List.all_eq_true]
        intro v hv
        exact userViolations_ordered hwf.1 v hv
      · rw [List.all_eq_true]
        intro v hv
        exact roleViolations_ordered hwf.2 v hv

/-- Witness for claim C7 on the example tables. -/
theorem c7_codes_sorted_witness :
    (([⟨"Alice", "R1", "TX1", "TX2", "High"⟩] : List UserViolation).all
        fun v => pyLt v.tcode1 v.tcode2) = true ∧
    (([⟨"R1", "TX1", "TX2", "High"⟩] : List RoleViolation).all
        fun v => pyLt v.tcode1 v.tcode2) = true :=
  c7_codes_sorted exampleRuleTable exampleAccessTable
    ⟨1, 2, 2, [⟨"Alice", "R1", "TX1", "TX2", "High"⟩], [⟨"R1", "TX1", "TX2", "High"⟩]⟩
    (by rfl)

/-- Claim C5, aggregation independence: when one user holds a role
granting only code a and a different user holds the same role granting
only code b, and the canonical pair of a and b is in the conflict map,
the detector emits exactly one role-level violation for that role on
that pair and no user-level violation at all. -/
theorem c5_aggregation_independence (u1 u2 r a b s : String) (M : ConflictMap)
    (hu1 : pyStrip u1 ≠ "") (hu2 : pyStrip u2 ≠ "") (huu : pyStrip u1 ≠ pyStrip u2)
    (hr : pyStrip r ≠ "")
    (ha1 : canonCode a ≠ "") (ha2 : canonCode a ≠ "NAN")
    (hb1 : canonCode b ≠ "") (hb2 : canonCode b ≠ "NAN")
    (hab : canonCode a ≠ canonCode b)
    (hM : findPair M (sortPair (canonCode a) (canonCode b)) = some s) :
    process_user_access ⟨["USER NAME", "ROLE", "AUTHORIZATION VALUE"],
        [[some u1, some r, some a], [some u2, some r, some b]]⟩
      = .ok ([(pyStrip u1, [(pyStrip r, [canonCode a])]),
              (pyStrip u2, [(pyStrip r, [canonCode b])])],
             [(pyStrip r, [canonCode a, canonCode b])]) ∧
    userViolations M [(pyStrip u1, [(pyStrip r, [canonCode a])]),
                      (pyStrip u2, [(pyStrip r, [canonCode b])])] = [] ∧
    roleViolations M [(pyStrip r, [canonCode a, canonCode b])]
      = [⟨pyStrip r, (sortPair (canonCode a) (canonCode b)).1,
          (sortPair (canonCode a) (canonCode b)).2, s⟩] := by
  have hadd1 : addAccess [] [] (some u1) (some r) (some a)
      = ([(pyStrip u1, [(pyStrip r, [canonCode a])])], [(pyStrip r, [canonCode a])]) := by
    simp only [addAccess, pyStr]
    rw [if_pos ⟨hu1, hr, ha1, ha2⟩]
    rfl
  have hmem : ¬ canonCode b ∈ [canonCode a] := by
    rw [List.mem_singleton]
    exact fun e => hab e.symm
  have hadd2 : addAccess [(pyStrip u1, [(pyStrip r, [canonCode a])])]
      [(pyStrip r, [canonCode a])] (some u2) (some r) (some b)
      = ([(pyStrip u1, [(pyStrip r, [canonCode a])]),
          (pyStrip u2, [(pyStrip r, [canonCode b])])],
         [(pyStrip r, [canonCode a, canonCode b])]) := by
    simp only [addAccess, pyStr]
    rw [if_pos ⟨hu2, hr, hb1, hb2⟩]
    simp only [insertUser, insertRole, insertSet]
    rw [if_neg huu, if_neg hmem]
    simp
  refine ⟨?_, ?_, ?_⟩
  · calc process_user_access ⟨["USER NAME", "ROLE", "AUTHORIZATION VALUE"],
          [[some u1, some r, some a], [some u2, some r, some b]]⟩
        = processAccessRows ["USER NAME", "ROLE", "AUTHORIZATION VALUE"]
            [[some u2, some r, some b]]
            (addAccess [] [] (some u1) (some r) (some a)).1
            (addAccess [] [] (some u1) (some r) (some a)).2 := rfl
      _ = processAccessRows ["USER NAME", "ROLE", "AUTHORIZATION VALUE"]
            [[some u2, some r, some b]]
            [(pyStrip u1, [(pyStrip r, [canonCode a])])]
            [(pyStrip r, [canonCode a])] := by rw [hadd1]
      _ = .ok ([(pyStrip u1, [(pyStrip r, [canonCode a])]),
                (pyStrip u2, [(pyStrip r, [canonCode b])])],
               [(pyStrip r, [canonCode a, canonCode b])]) := by
            calc processAccessRows ["USER NAME", "ROLE", "AUTHORIZATION VALUE"]
                  [[some u2, some r, some b]]
                  [(pyStrip u1, [(pyStrip r, [canonCode a])])]
                  [(pyStrip r, [canonCode a])]
                = processAccessRows ["USER NAME", "ROLE", "AUTHORIZATION VALUE"] []
                    (addAccess [(pyStrip u1, [(pyStrip r, [canonCode a])])]
                      [(pyStrip r, [canonCode a])] (some u2) (some r) (some b)).1
                    (addAccess [(pyStrip u1, [(pyStrip r, [canonCode a])])]
                      [(pyStrip r, [canonCode a])] (some u2) (some r) (some b)).2 := rfl
              _ = _ := by rw [hadd2]; rfl
  · simp [userViolations, violationsFor, pairs]
  · simp [roleViolations, violationsFor, pairs, hM]

/-- Witness for claim C5 at two concrete users sharing a role. -/
theorem c5_aggregation_independence_witness :
    process_user_access ⟨["USER NAME", "ROLE", "AUTHORIZATION VALUE"],
        [[some "U1", some "R1 ", some " a1"], [some "U2", some "R1 ", some "B2"]]⟩
      = .ok ([("U1", [("R1", ["A1"])]), ("U2", [("R1", ["B2"])])],
             [("R1", ["A1", "B2"])]) ∧
    userViolations [(("A1", "B2"), "High")]
      [("U1", [("R1", ["A1"])]), ("U2", [("R1", ["B2"])])] = [] ∧
    roleViolations [(("A1", "B2"), "High")] [("R1", ["A1", "B2"])]
      = [⟨"R1", "A1", "B2", "High"⟩] :=
  c5_aggregation_independence "U1" "U2" "R1 " " a1" "B2" "High" [(("A1", "B2"), "High")]
    (by decide) (by decide) (by decide) (by decide) (by decide) (by decide) (by decide)
    (by decide) (by decide) (by decide)

/-- Counterexample to claim C8: a rule table that lacks every required
column but contains no rows is processed without any error, because
the per-row lookups that would raise are never executed; the whole run
succeeds and is indistinguishable from a run with zero violations. -/
theorem c8_empty_table_no_error :
    analyzeTables ⟨["FOO"], []⟩ ⟨["BAR"], []⟩ = .ok ⟨0, 0, 0, [], []⟩ := rfl

/-- The rule-table half of the schema failure: a nonempty rule table
missing a required column makes process_rule_book fail with an error
naming a missing required column. -/
theorem process_rule_book_missing_column (rt : Table) (hrt : rt.rows ≠ [])
    (hrc : ∃ c ∈ ["TCODE1", "TCODE2", "ASK_RISK"], c ∉ rt.columns) :
    ∃ c ∈ ["TCODE1", "TCODE2", "ASK_RISK"],
      c ∉ rt.columns ∧ process_rule_book rt = .error c := by
  obtain ⟨r0, rrest, hr0⟩ : ∃ r0 rrest, rt.rows = r0 :: rrest := by
    cases hrows : rt.rows with
    | nil => exact absurd hrows hrt
    | cons x l => exact ⟨x, l, rfl⟩
  unfold process_rule_book
  rw [hr0]
  by_cases h1 : "TCODE1" ∈ rt.columns
  · by_cases h2 : "TCODE2" ∈ rt.columns
    · by_cases h3 : "ASK_RISK" ∈ rt.columns
      · exfalso
        obtain ⟨c, hc, hcn⟩ := hrc
        simp only [List.mem_cons, List.not_mem_nil, or_false] at hc
        rcases hc with rfl | rfl | rfl
        · exact hcn h1
        · exact hcn h2
        · exact hcn h3
      · refine ⟨"ASK_RISK", by simp, h3, ?_⟩
        obtain ⟨v1, hv1⟩ := getCell_of_mem r0 h1
        obtain ⟨v2, hv2⟩ := getCell_of_mem r0 h2
        simp only [processRuleRows]
        rw [hv1, hv2, getCell_of_not_mem r0 h3]
    · refine ⟨"TCODE2", by simp, h2, ?_⟩
      obtain ⟨v1, hv1⟩ := getCell_of_mem r0 h1
      simp only [processRuleRows]
      rw [hv1, getCell_of_not_mem r0 h2]
  · refine ⟨"TCODE1", by simp, h1, ?_⟩
    simp only [processRuleRows]
    rw [getCell_of_not_mem r0 h1]

/-- The access-table half of the schema failure: a nonempty access
table missing a required column makes process_user_access fail with an
error naming a missing required column. -/
theorem process_user_access_missing_column (acc : Table) (hacc : acc.rows ≠ [])
    (hac : ∃ c ∈ ["USER NAME", "ROLE", "AUTHORIZATION VALUE"], c ∉ acc.columns) :
    ∃ c ∈ ["USER NAME", "ROLE", "AUTHORIZATION VALUE"],
      c ∉ acc.columns ∧ process_user_access acc = .error c := by
  obtain ⟨a0, arest, ha0⟩ : ∃ a0 arest, acc.rows = a0 :: arest := by
    cases hrows : acc.rows with
    | nil => exact absurd hrows hacc
    | cons x l => exact ⟨x, l, rfl⟩
  unfold process_user_access
  rw [ha0]
  by_cases h1 : "USER NAME" ∈ acc.columns
  · by_cases h2 : "ROLE" ∈ acc.columns
    · by_cases h3 : "AUTHORIZATION VALUE" ∈ acc.columns
      · exfalso
        obtain ⟨c, hc, hcn⟩ := hac
        simp only [List.mem_cons, List.not_mem_nil, or_false] at hc
        rcases hc with rfl | rfl | rfl
        · exact hcn h1
        · exact hcn h2
        · exact hcn h3
      · refine ⟨"AUTHORIZATION VALUE", by simp, h3, ?_⟩
        obtain ⟨v1, hv1⟩ := getCell_of_mem a0 h1
        obtain ⟨v2, hv2⟩ := getCell_of_mem a0 h2
        simp only [processAccessRows]
        rw [hv1, hv2, getCell_of_not_mem a0 h3]
    · refine ⟨"ROLE", by simp, h2, ?_⟩
      obtain ⟨v1, hv1⟩ := getCell_of_mem a0 h1
      simp only [processAccessRows]
      rw [hv1, getCell_of_not_mem a0 h2]
  · refine ⟨"USER NAME", by simp, h1, ?_⟩
    simp only [processAccessRows]
    rw [getCell_of_not_mem a0 h1]

/-- Claim C8 as amended: each input table independently causes a
schema failure when defective. If the rule table lacks a required
column and has at least one row, processing it fails with an error
naming a missing required column and the whole analysis run fails;
likewise, if the access table lacks a required column and has at least
one row, processing it fails with an error naming a missing required
column and the whole analysis run fails whatever the rule table is. In
both cases the failure is a distinguishable error value, not a
successful run with zero violations. -/
theorem c8_missing_column_error (rt acc : Table) :
    (rt.rows ≠ [] → (∃ c ∈ ["TCODE1", "TCODE2", "ASK_RISK"], c ∉ rt.columns) →
      (∃ c ∈ ["TCODE1", "TCODE2", "ASK_RISK"],
          c ∉ rt.columns ∧ process_rule_book rt = .error c) ∧
      (∃ c, analyzeTables rt acc = .error c)) ∧
    (acc.rows ≠ [] → (∃ c ∈ ["USER NAME", "ROLE", "AUTHORIZATION VALUE"], c ∉ acc.columns) →
      (∃ c ∈ ["USER NAME", "ROLE", "AUTHORIZATION VALUE"],
          c ∉ acc.columns ∧ process_user_access acc = .error c) ∧
      (∃ c, analyzeTables rt acc = .error c)) := by
  constructor
  · intro hrt hrc
    obtain ⟨c, hc, hcn, herr⟩ := process_rule_book_missing_column rt hrt hrc
    exact ⟨⟨c, hc, hcn, herr⟩, ⟨c, by simp [analyzeTables, herr]⟩⟩
  · intro hacc hac
    obtain ⟨c, hc, hcn, herr⟩ := process_user_access_missing_column acc hacc hac
    refine ⟨⟨c, hc, hcn, herr⟩, ?_⟩
    cases hm : process_rule_book rt with
    | error e => exact ⟨e, by simp [analyzeTables, hm]⟩
    | ok m => exact ⟨c, by simp [analyzeTables, hm, herr]⟩

/-- Witness for the amended claim C8: a defective one-row rule table
fails its own processing and the run, and a defective one-row access
table does the same. -/
theorem c8_missing_column_error_witness :
    ((∃ c ∈ ["TCODE1", "TCODE2", "ASK_RISK"], c ∉ (["TCODE2"] : List String) ∧
        process_rule_book ⟨["TCODE2"], [[some "x"]]⟩ = .error c) ∧
     (∃ c, analyzeTables ⟨["TCODE2"], [[some "x"]]⟩ ⟨["USER NAME"], [[some "y"]]⟩
        = .error c)) ∧
    ((∃ c ∈ ["USER NAME", "ROLE", "AUTHORIZATION VALUE"], c ∉ (["USER NAME"] : List String) ∧
        process_user_access ⟨["USER NAME"], [[some "y"]]⟩ = .error c) ∧
     (∃ c, analyzeTables ⟨["TCODE2"], [[some "x"]]⟩ ⟨["USER NAME"], [[some "y"]]⟩
        = .error c)) :=
  ⟨(c8_missing_column_error ⟨["TCODE2"], [[some "x"]]⟩ ⟨["USER NAME"], [[some "y"]]⟩).1
      (by decide) (by decide),
   (c8_missing_column_error ⟨["TCODE2"], [[some "x"]]⟩ ⟨["USER NAME"], [[some "y"]]⟩).2
      (by decide) (by decide)⟩
